import Mathlib

/-!
A shallow embedding of the stackful coroutine pool in
`src/core/src/engine/coro/pool.hpp` (`engine::coro::Pool<Task>`).

Modelling conventions:
* Coroutine handles are identified by natural-number ids; the pool state
  carries `next_id` to model fresh allocation by `CreateCoroutine`.
* The two moodycamel MPMC queues are modelled as FIFO lists
  (dequeue at the head, enqueue at the tail); in the sequential traces the
  claims quantify over, `size_approx` is the exact length.
* The `std::size_t` counters are modelled as `Nat`.  Increments never reach
  `2^64` in any execution the claims are about, and every decrement site is
  shown (as part of the reachability invariant) to act on a positive counter,
  so `Nat` truncated subtraction agrees with the machine decrement there.
  The one place where unsigned wraparound is load-bearing — the subtraction
  in `GetStats`, which the source clamps with `std::max` — is modelled
  explicitly with arithmetic modulo `2^64` (`sub64`).
* Stack allocation (`boost` stack allocator inside the `Coroutine`
  constructor) and the moodycamel `enqueue` may fail; both are modelled by a
  boolean oracle passed to the operation, matching where the source observes
  the failure (`catch (const std::bad_alloc&)` rethrows before any counter
  update; `enqueue` returning `false` skips the `++idle_coroutines_num_`).
-/

namespace CoroPool

/-- Width of `std::size_t` on the target platform (64-bit). -/
def W : Nat := 2 ^ 64

/-- Unsigned `std::size_t` subtraction `a - b` with unsigned wraparound modulo `2^64`,
as performed by `GetStats` in the source. -/
def sub64 (a b : Nat) : Nat := (a % W + (W - b % W)) % W

/-- Configuration of the pool (fields as used by `pool.hpp`;
`pool_config.hpp` itself is not in `src/`, but every field below is read by
`Pool<Task>` under its source name). -/
structure PoolConfig where
  stack_size : Nat
  initial_size : Nat
  max_size : Nat
  monitor_period : Nat
  deriving Repr, DecidableEq

/-- Statistics snapshot (fields as assigned by `Pool<Task>::GetStats`). -/
structure PoolStats where
  active_coroutines : Nat
  total_coroutines : Nat
  max_stack_usage_pct : Nat
  is_stack_usage_monitor_active : Bool
  deriving Repr, DecidableEq

/-- State of one `Pool<Task>` instance: the two queues, the two atomic
counters, the fixed-up config, the fresh-id supply, and the (spec-modelled)
stack-usage monitor observables. -/
structure PoolState where
  cfg : PoolConfig
  /-- Queue `initial_coroutines_`: the pristine queue, filled once by the
  constructor. -/
  initial_coroutines : List Nat
  /-- Queue `used_coroutines_`: the warm queue ("working set"). -/
  used_coroutines : List Nat
  /-- Counter `idle_coroutines_num_` (a `std::size_t` atomic). -/
  idle_coroutines_num : Nat
  /-- Counter `total_coroutines_num_` (a `std::size_t` atomic). -/
  total_coroutines_num : Nat
  /-- Fresh-id supply for newly constructed coroutine handles (model
  device, not a source field). -/
  next_id : Nat
  /-- Modelled from the spec: `StackUsageMonitor::GetMaxStackUsagePct()`
  (`stack_usage_monitor.hpp` is not in `src/`); the monitor publishes the
  maximum observed stack-usage percentage. -/
  monitor_max_pct : Nat
  /-- Modelled from the spec: `StackUsageMonitor::IsActive()`; the monitor
  is active iff `monitor_period > 0`. -/
  monitor_active : Bool
  deriving Repr, DecidableEq

/-- Source `Pool<Task>::FixupConfig`: round `stack_size` up to page granularity via
`(stack_size + page_size - 1) & ~(page_size - 1)` in `std::size_t`
arithmetic.  `~(page_size - 1)` on a 64-bit unsigned is `2^64 - page_size`
for a power-of-two page size.  The page size comes from
`utils::sys_info::GetPageSize()` (not in `src/`; per the spec it is the OS
page size, a power of two), so it is a parameter here. -/
def FixupConfig (page_size : Nat) (config : PoolConfig) : PoolConfig :=
  { config with
    stack_size :=
      (config.stack_size + page_size - 1) % W &&& (W - page_size) }

/-- Source `Pool<Task>::GetStackSize`: returns `config_.stack_size`. -/
def GetStackSize (s : PoolState) : Nat := s.cfg.stack_size

/-- The `Pool<Task>` constructor (assuming the initial allocations succeed;
a startup allocation failure aborts via `UINVARIANT`): stores the fixed-up
config, pre-fills the pristine queue with `initial_size` coroutines created
by `CreateCoroutine` (each incrementing `total_coroutines_num_` from its
initial value 0), initializes `idle_coroutines_num_` to `initial_size`, and
leaves the warm queue empty.  The monitor observables start at zero /
active-iff-period-positive (modelled from the spec). -/
def mkPool (page_size : Nat) (config : PoolConfig) : PoolState :=
  let c := FixupConfig page_size config
  { cfg := c
    initial_coroutines := List.range c.initial_size
    used_coroutines := []
    idle_coroutines_num := c.initial_size
    total_coroutines_num := c.initial_size
    next_id := c.initial_size
    monitor_max_pct := 0
    monitor_active := c.monitor_period ≠ 0 }

/-- Source `Pool<Task>::GetCoroutine`: try the warm queue, then the pristine queue
(the `||` short-circuits, so the pristine queue is not touched on a warm
hit); on either hit decrement `idle_coroutines_num_`; on a double miss call
`CreateCoroutine`, which allocates (may throw `std::bad_alloc`, modelled by
`allocOk = false`) and, only after the allocation succeeded, increments
`total_coroutines_num_`.  Returns the acquired coroutine id (`none` when the
allocation failure propagates) together with the post state. -/
def GetCoroutine (s : PoolState) (allocOk : Bool) : Option Nat × PoolState :=
  match s.used_coroutines with
  | c :: rest =>
    (some c, { s with
      used_coroutines := rest
      idle_coroutines_num := s.idle_coroutines_num - 1 })
  | [] =>
    match s.initial_coroutines with
    | c :: rest =>
      (some c, { s with
        initial_coroutines := rest
        idle_coroutines_num := s.idle_coroutines_num - 1 })
    | [] =>
      if allocOk then
        (some s.next_id, { s with
          total_coroutines_num := s.total_coroutines_num + 1
          next_id := s.next_id + 1 })
      else
        (none, s)

/-- Source `Pool<Task>::PutCoroutine` on a lease holding coroutine `c`: if
`idle_coroutines_num_ >= max_size`, return immediately (the coroutine is not
consumed); otherwise enqueue onto the warm queue (`enqOk` models the
moodycamel `enqueue` result; on failure the element is not inserted) and on
success increment `idle_coroutines_num_`.  The returned flag says whether
the coroutine handle was consumed (moved into the queue). -/
def PutCoroutine (s : PoolState) (c : Nat) (enqOk : Bool) : PoolState × Bool :=
  if s.cfg.max_size ≤ s.idle_coroutines_num then
    (s, false)
  else if enqOk then
    ({ s with
      used_coroutines := s.used_coroutines ++ [c]
      idle_coroutines_num := s.idle_coroutines_num + 1 }, true)
  else
    (s, false)

/-- Source `Pool<Task>::OnCoroutineDestruction`: decrement `total_coroutines_num_`
(called by `~CoroutinePtr` whenever the held coroutine is still alive). -/
def OnCoroutineDestruction (s : PoolState) : PoolState :=
  { s with total_coroutines_num := s.total_coroutines_num - 1 }

/-- Source `Pool<Task>::GetStats`: `active_coroutines` is the `std::size_t`
subtraction (which can wrap) of the summed `size_approx` of the two queues from
`total_coroutines_num_`; `total_coroutines` is clamped with `std::max`; the
monitor fields are copied from the monitor. -/
def GetStats (s : PoolState) : PoolStats :=
  let active :=
    sub64 s.total_coroutines_num
      (s.used_coroutines.length + s.initial_coroutines.length)
  { active_coroutines := active
    total_coroutines := max s.total_coroutines_num active
    max_stack_usage_pct := s.monitor_max_pct
    is_stack_usage_monitor_active := s.monitor_active }

/-- A pool together with the outstanding leases (`CoroutinePtr` values held
by callers).  The lease list is caller-side state; the pool itself never
stores it. -/
structure World where
  pool : PoolState
  leases : List Nat
  deriving Repr, DecidableEq

/-- One sequential operation against the pool:
`acquire` = `GetCoroutine` (with the allocation oracle),
`release` = `std::move(ptr).ReturnToPool()` on the most recent lease
(`PutCoroutine` followed by `~CoroutinePtr`, with the enqueue oracle), and
`drop` = destroying the most recent lease without returning it. -/
inductive Op where
  | acquire (allocOk : Bool)
  | release (enqOk : Bool)
  | drop
  deriving Repr, DecidableEq

/-- Operation `acquire`: run `GetCoroutine`; a returned coroutine becomes an
outstanding lease; a propagated allocation failure leaves the world
unchanged. -/
def acquireW (w : World) (allocOk : Bool) : World :=
  match GetCoroutine w.pool allocOk with
  | (some c, s) => ⟨s, c :: w.leases⟩
  | (none, s) => ⟨s, w.leases⟩

/-- Operation `release` of the most recent lease: `PutCoroutine`, then the
`CoroutinePtr` destructor, which calls `OnCoroutineDestruction` exactly when
the coroutine was not consumed (not moved into the warm queue). -/
def releaseW (w : World) (enqOk : Bool) : World :=
  match w.leases with
  | [] => w
  | c :: rest =>
    let r := PutCoroutine w.pool c enqOk
    ⟨if r.2 then r.1 else OnCoroutineDestruction r.1, rest⟩

/-- Operation `drop` of the most recent lease: the `CoroutinePtr` destructor with the
coroutine still alive calls `OnCoroutineDestruction`. -/
def dropW (w : World) : World :=
  match w.leases with
  | [] => w
  | _ :: rest => ⟨OnCoroutineDestruction w.pool, rest⟩

/-- Step of the sequential (single-threaded) semantics. -/
def stepOp (w : World) : Op → World
  | .acquire a => acquireW w a
  | .release e => releaseW w e
  | .drop => dropW w

/-- Run a trace of operations from a world. -/
def runTrace (w : World) : List Op → World
  | [] => w
  | op :: rest => runTrace (stepOp w op) rest

/-- The world reached from a freshly constructed pool by a sequential
trace. -/
def reach (page_size : Nat) (config : PoolConfig) (t : List Op) : World :=
  runTrace ⟨mkPool page_size config, []⟩ t

/-- Bookkeeping invariant at quiescent points: `total_coroutines_num_`
counts the pristine queue, the warm queue and the outstanding leases, and
`idle_coroutines_num_` counts the two queues. -/
def QuiescentInv (w : World) : Prop :=
  w.pool.total_coroutines_num =
      w.pool.initial_coroutines.length + w.pool.used_coroutines.length +
        w.leases.length
    ∧ w.pool.idle_coroutines_num =
        w.pool.initial_coroutines.length + w.pool.used_coroutines.length

/-- Concrete state with a non-empty warm queue, used to witness the
warm-first acquire policy. -/
def warmState : PoolState :=
  { cfg := ⟨4096, 1, 4, 0⟩
    initial_coroutines := [5]
    used_coroutines := [7, 8]
    idle_coroutines_num := 3
    total_coroutines_num := 3
    next_id := 9
    monitor_max_pct := 0
    monitor_active := false }

/-- Concrete state already at the idle ceiling (`idle = max_size`). -/
def cappedState : PoolState :=
  { cfg := ⟨4096, 1, 2, 0⟩
    initial_coroutines := []
    used_coroutines := [7, 6]
    idle_coroutines_num := 2
    total_coroutines_num := 3
    next_id := 8
    monitor_max_pct := 0
    monitor_active := false }

/-- Concrete state with room below the idle ceiling. -/
def roomState : PoolState :=
  { cfg := ⟨4096, 1, 4, 0⟩
    initial_coroutines := []
    used_coroutines := [7]
    idle_coroutines_num := 1
    total_coroutines_num := 2
    next_id := 8
    monitor_max_pct := 0
    monitor_active := false }

/-- Concrete state with both queues drained. -/
def drainedState : PoolState :=
  { cfg := ⟨4096, 1, 4, 0⟩
    initial_coroutines := []
    used_coroutines := []
    idle_coroutines_num := 0
    total_coroutines_num := 2
    next_id := 2
    monitor_max_pct := 0
    monitor_active := false }

theorem sub64_of_le {a b : Nat} (hb : b ≤ a) (ha : a < W) : sub64 a b = a - b := by
  have hbW : b < W := lt_of_le_of_lt hb ha
  rw [sub64, Nat.mod_eq_of_lt ha, Nat.mod_eq_of_lt hbW]
  have h : a + (W - b) = a - b + W := by omega
  rw [h, Nat.add_mod_right]
  exact Nat.mod_eq_of_lt (by omega)

theorem sub64_self (a : Nat) : sub64 a a = 0 := by
  have h : a % W < W := Nat.mod_lt _ (by norm_num [W])
  rw [sub64]
  have h2 : a % W + (W - a % W) = W := by omega
  rw [h2, Nat.mod_self]

theorem quiescentInv_mk (p : Nat) (config : PoolConfig) :
    QuiescentInv ⟨mkPool p config, []⟩ := by
  simp [QuiescentInv, mkPool]

theorem quiescentInv_step (w : World) (op : Op) (h : QuiescentInv w) :
    QuiescentInv (stepOp w op) := by
  obtain ⟨h1, h2⟩ := h
  cases op with
  | acquire a =>
    rcases hu : w.pool.used_coroutines with _ | ⟨c, rest⟩
    · rcases hi : w.pool.initial_coroutines with _ | ⟨d, rest_i⟩
      · rw [hu, hi] at h1 h2
        simp only [List.length_nil, List.length_cons] at h1 h2
        cases a <;>
          simp [stepOp, acquireW, GetCoroutine, hu, hi, QuiescentInv] <;>
          omega
      · rw [hu, hi] at h1 h2
        simp only [List.length_nil, List.length_cons] at h1 h2
        simp [stepOp, acquireW, GetCoroutine, hu, hi, QuiescentInv]
        omega
    · rw [hu] at h1 h2
      simp only [List.length_cons] at h1 h2
      simp [stepOp, acquireW, GetCoroutine, hu, QuiescentInv]
      omega
  | release e =>
    rcases hl : w.leases with _ | ⟨c, rest⟩
    · simpa [stepOp, releaseW, hl, QuiescentInv] using And.intro h1 h2
    · rw [hl] at h1
      simp [List.length_cons] at h1
      by_cases hm : w.pool.cfg.max_size ≤ w.pool.idle_coroutines_num
      · simp [stepOp, releaseW, hl, PutCoroutine, hm, OnCoroutineDestruction,
          QuiescentInv]
        omega
      · cases e
        · simp [stepOp, releaseW, hl, PutCoroutine, hm, OnCoroutineDestruction,
            QuiescentInv]
          omega
        · simp [stepOp, releaseW, hl, PutCoroutine, hm, QuiescentInv]
          omega
  | drop =>
    rcases hl : w.leases with _ | ⟨c, rest⟩
    · simpa [stepOp, dropW, hl, QuiescentInv] using And.intro h1 h2
    · rw [hl] at h1
      simp [List.length_cons] at h1
      simp [stepOp, dropW, hl, OnCoroutineDestruction, QuiescentInv]
      omega

theorem quiescentInv_runTrace (t : List Op) :
    ∀ w : World, QuiescentInv w → QuiescentInv (runTrace w t) := by
  induction t with
  | nil => intro w h; exact h
  | cons op rest ih =>
    intro w h
    exact ih (stepOp w op) (quiescentInv_step w op h)

theorem quiescentInv_reach (p : Nat) (config : PoolConfig) (t : List Op) :
    QuiescentInv (reach p config t) :=
  quiescentInv_runTrace t _ (quiescentInv_mk p config)

theorem stepOp_cfg (w : World) (op : Op) : (stepOp w op).pool.cfg = w.pool.cfg := by
  cases op with
  | acquire a =>
    rcases hu : w.pool.used_coroutines with _ | ⟨c, rest⟩
    · rcases hi : w.pool.initial_coroutines with _ | ⟨d, rest_i⟩
      · cases a <;> simp [stepOp, acquireW, GetCoroutine, hu, hi]
      · simp [stepOp, acquireW, GetCoroutine, hu, hi]
    · simp [stepOp, acquireW, GetCoroutine, hu]
  | release e =>
    rcases hl : w.leases with _ | ⟨c, rest⟩
    · simp [stepOp, releaseW, hl]
    · by_cases hm : w.pool.cfg.max_size ≤ w.pool.idle_coroutines_num
      · simp [stepOp, releaseW, hl, PutCoroutine, hm, OnCoroutineDestruction]
      · cases e <;>
          simp [stepOp, releaseW, hl, PutCoroutine, hm, OnCoroutineDestruction]
  | drop =>
    rcases hl : w.leases with _ | ⟨c, rest⟩ <;>
      simp [stepOp, dropW, hl, OnCoroutineDestruction]

theorem runTrace_cfg (t : List Op) :
    ∀ w : World, (runTrace w t).pool.cfg = w.pool.cfg := by
  induction t with
  | nil => intro w; rfl
  | cons op rest ih =>
    intro w
    rw [show runTrace w (op :: rest) = runTrace (stepOp w op) rest from rfl,
      ih, stepOp_cfg]

theorem reach_cfg (p : Nat) (config : PoolConfig) (t : List Op) :
    (reach p config t).pool.cfg = FixupConfig p config := by
  rw [reach, runTrace_cfg]
  rfl

theorem stepOp_idle_le (w : World) (op : Op)
    (h : w.pool.idle_coroutines_num ≤ w.pool.cfg.max_size) :
    (stepOp w op).pool.idle_coroutines_num ≤ (stepOp w op).pool.cfg.max_size := by
  rw [stepOp_cfg]
  cases op with
  | acquire a =>
    rcases hu : w.pool.used_coroutines with _ | ⟨c, rest⟩
    · rcases hi : w.pool.initial_coroutines with _ | ⟨d, rest_i⟩
      · cases a <;> simp [stepOp, acquireW, GetCoroutine, hu, hi] <;> omega
      · simp [stepOp, acquireW, GetCoroutine, hu, hi]
        omega
    · simp [stepOp, acquireW, GetCoroutine, hu]
      omega
  | release e =>
    rcases hl : w.leases with _ | ⟨c, rest⟩
    · simpa [stepOp, releaseW, hl] using h
    · by_cases hm : w.pool.cfg.max_size ≤ w.pool.idle_coroutines_num
      · simpa [stepOp, releaseW, hl, PutCoroutine, hm, OnCoroutineDestruction]
          using h
      · cases e
        · simpa [stepOp, releaseW, hl, PutCoroutine, hm, OnCoroutineDestruction]
            using h
        · simp [stepOp, releaseW, hl, PutCoroutine, hm]
          omega
  | drop =>
    rcases hl : w.leases with _ | ⟨c, rest⟩ <;>
      simpa [stepOp, dropW, hl, OnCoroutineDestruction] using h

theorem runTrace_idle_le (t : List Op) :
    ∀ w : World, w.pool.idle_coroutines_num ≤ w.pool.cfg.max_size →
      (runTrace w t).pool.idle_coroutines_num ≤
        (runTrace w t).pool.cfg.max_size := by
  induction t with
  | nil => intro w h; exact h
  | cons op rest ih =>
    intro w h
    exact ih (stepOp w op) (stepOp_idle_le w op h)

/-- C1: for every call to `GetCoroutine`, the warm queue is tried first:
when the warm queue is non-empty the returned coroutine is its head and the
pristine queue is untouched; the pristine queue is dequeued only when the
warm queue is empty; a new coroutine is allocated (fresh id,
`total_coroutines_num_` incremented) only when both queues are empty. -/
theorem c1_warm_first (s : PoolState) (a : Bool) :
    (∀ c rest, s.used_coroutines = c :: rest →
      GetCoroutine s a = (some c, { s with
        used_coroutines := rest
        idle_coroutines_num := s.idle_coroutines_num - 1 }))
    ∧ (∀ c rest, s.used_coroutines = [] → s.initial_coroutines = c :: rest →
      GetCoroutine s a = (some c, { s with
        initial_coroutines := rest
        idle_coroutines_num := s.idle_coroutines_num - 1 }))
    ∧ (s.used_coroutines = [] → s.initial_coroutines = [] → a = true →
      GetCoroutine s a = (some s.next_id, { s with
        total_coroutines_num := s.total_coroutines_num + 1
        next_id := s.next_id + 1 })) := by
  rcases s with ⟨cfg, ini, used, idle, total, nid, pct, act⟩
  refine ⟨?_, ?_, ?_⟩
  · intro c rest hu
    simp only at hu
    subst hu
    rfl
  · intro c rest hu hi
    simp only at hu hi
    subst hu
    subst hi
    rfl
  · intro hu hi ha
    simp only at hu hi
    subst hu
    subst hi
    subst ha
    rfl

/-- Witness for C1 at a concrete state with warm queue `[7, 8]`. -/
theorem c1_warm_first_witness :
    GetCoroutine warmState true =
      (some 7, { warmState with
        used_coroutines := [8]
        idle_coroutines_num := warmState.idle_coroutines_num - 1 }) :=
  (c1_warm_first warmState true).1 7 [8] rfl

/-- C3: `PutCoroutine` returns without enqueueing when
`idle_coroutines_num_ >= max_size` at entry; otherwise, on enqueue success,
it appends the coroutine to the warm queue and increments
`idle_coroutines_num_`; the pristine queue is never touched by
`PutCoroutine`, and no operation of the pool ever replenishes it
(every step leaves the pristine queue a suffix of itself). -/
theorem c3_release_policy :
    (∀ (s : PoolState) (c : Nat) (e : Bool),
      (s.cfg.max_size ≤ s.idle_coroutines_num → PutCoroutine s c e = (s, false))
      ∧ (s.idle_coroutines_num < s.cfg.max_size →
          PutCoroutine s c true = ({ s with
            used_coroutines := s.used_coroutines ++ [c]
            idle_coroutines_num := s.idle_coroutines_num + 1 }, true))
      ∧ (PutCoroutine s c e).1.initial_coroutines = s.initial_coroutines)
    ∧ ∀ (w : World) (op : Op),
        List.IsSuffix (stepOp w op).pool.initial_coroutines
          w.pool.initial_coroutines := by
  constructor
  · intro s c e
    refine ⟨fun h => ?_, fun h => ?_, ?_⟩
    · simp [PutCoroutine, h]
    · simp [PutCoroutine, Nat.not_le.mpr h]
    · by_cases h : s.cfg.max_size ≤ s.idle_coroutines_num
      · simp [PutCoroutine, h]
      · cases e <;> simp [PutCoroutine, h]
  · intro w op
    cases op with
    | acquire a =>
      rcases hu : w.pool.used_coroutines with _ | ⟨c, rest⟩
      · rcases hi : w.pool.initial_coroutines with _ | ⟨d, rest_i⟩
        · cases a <;> simp [stepOp, acquireW, GetCoroutine, hu, hi]
        · simp [stepOp, acquireW, GetCoroutine, hu, hi]
      · simp [stepOp, acquireW, GetCoroutine, hu]
    | release e =>
      rcases hl : w.leases with _ | ⟨c, rest⟩
      · simp [stepOp, releaseW, hl]
      · by_cases hm : w.pool.cfg.max_size ≤ w.pool.idle_coroutines_num
        · simp [stepOp, releaseW, hl, PutCoroutine, hm, OnCoroutineDestruction]
        · cases e <;>
            simp [stepOp, releaseW, hl, PutCoroutine, hm, OnCoroutineDestruction]
    | drop =>
      rcases hl : w.leases with _ | ⟨c, rest⟩ <;>
        simp [stepOp, dropW, hl, OnCoroutineDestruction]

/-- Witness for C3: at the ceiling the put is a no-op; below the ceiling the
coroutine is appended to the warm queue and the idle counter grows by one. -/
theorem c3_release_policy_witness :
    PutCoroutine cappedState 9 true = (cappedState, false)
    ∧ PutCoroutine roomState 9 true =
        ({ roomState with
          used_coroutines := roomState.used_coroutines ++ [9]
          idle_coroutines_num := roomState.idle_coroutines_num + 1 }, true) :=
  ⟨(c3_release_policy.1 cappedState 9 true).1 (by decide),
   (c3_release_policy.1 roomState 9 true).2.1 (by decide)⟩

/-- C4: when both queues are empty and the stack allocation inside
`CreateCoroutine` fails, `GetCoroutine` propagates the error and the whole
pool state — `total_coroutines_num_`, `idle_coroutines_num_` and both
queues — is unchanged (the `throw` happens before any counter update). -/
theorem c4_alloc_failure (s : PoolState)
    (hu : s.used_coroutines = []) (hi : s.initial_coroutines = []) :
    GetCoroutine s false = (none, s)
    ∧ (GetCoroutine s false).2.total_coroutines_num = s.total_coroutines_num
    ∧ (GetCoroutine s false).2.idle_coroutines_num = s.idle_coroutines_num
    ∧ (GetCoroutine s false).2.used_coroutines = s.used_coroutines
    ∧ (GetCoroutine s false).2.initial_coroutines = s.initial_coroutines := by
  rcases s with ⟨cfg, ini, used, idle, total, nid, pct, act⟩
  simp only at hu hi
  subst hu
  subst hi
  exact ⟨rfl, rfl, rfl, rfl, rfl⟩

/-- Witness for C4 at a concrete state with both queues drained. -/
theorem c4_alloc_failure_witness :
    GetCoroutine drainedState false = (none, drainedState) :=
  (c4_alloc_failure drainedState rfl rfl).1

/-- C5: right after construction with `initial_size = n`, the pool holds
exactly `n` coroutines: `total_coroutines_num_ = n`, the pristine queue
holds `n` coroutines, the warm queue is empty, and `GetStats` reports zero
active coroutines. -/
theorem c5_startup_population (p : Nat) (config : PoolConfig) :
    (mkPool p config).total_coroutines_num = config.initial_size
    ∧ (mkPool p config).initial_coroutines.length = config.initial_size
    ∧ (mkPool p config).used_coroutines = []
    ∧ (GetStats (mkPool p config)).active_coroutines = 0 := by
  refine ⟨rfl, by simp [mkPool, FixupConfig], rfl, ?_⟩
  have h := sub64_self config.initial_size
  simpa [GetStats, mkPool] using h

/-- C9: `GetStats` always reports `total_coroutines ≥ active_coroutines`
because the total field is clamped with `std::max`, even on states where
the unsigned subtraction computing the active field wraps around. -/
theorem c9_stats_ordered (s : PoolState) :
    (GetStats s).active_coroutines ≤ (GetStats s).total_coroutines :=
  Nat.le_max_right _ _

/-- C2: at every quiescent point of every sequential trace — including the
state right after construction, so the equality is established by the
constructor and preserved by every acquire, release and lease drop —
`total_coroutines_num_` equals the pristine-queue size plus the warm-queue
size plus the number of outstanding leases. -/
theorem c2_quiescent_count (p : Nat) (config : PoolConfig) (t : List Op) :
    (reach p config t).pool.total_coroutines_num =
      (reach p config t).pool.initial_coroutines.length +
        (reach p config t).pool.used_coroutines.length +
        (reach p config t).leases.length :=
  (quiescentInv_reach p config t).1

/-- C7: on every reachable state (with the live count below `2^64`, which
every real execution satisfies), `GetStats` reports the total field equal to
`total_coroutines_num_`, the active field equal to `total_coroutines_num_`
minus the idle count computed from the sizes of the two queues, and the monitor
fields copied from the stack-usage monitor. -/
theorem c7_stats_snapshot (p : Nat) (config : PoolConfig) (t : List Op)
    (hW : (reach p config t).pool.total_coroutines_num < W) :
    (GetStats (reach p config t).pool).total_coroutines =
        (reach p config t).pool.total_coroutines_num
    ∧ (GetStats (reach p config t).pool).active_coroutines =
        (reach p config t).pool.total_coroutines_num -
          ((reach p config t).pool.used_coroutines.length +
            (reach p config t).pool.initial_coroutines.length)
    ∧ (GetStats (reach p config t).pool).max_stack_usage_pct =
        (reach p config t).pool.monitor_max_pct
    ∧ (GetStats (reach p config t).pool).is_stack_usage_monitor_active =
        (reach p config t).pool.monitor_active := by
  obtain ⟨h1, h2⟩ := quiescentInv_reach p config t
  set s := (reach p config t).pool with hs
  have hle : s.used_coroutines.length + s.initial_coroutines.length ≤
      s.total_coroutines_num := by omega
  have hsub := sub64_of_le hle hW
  refine ⟨?_, ?_, rfl, rfl⟩
  · show max s.total_coroutines_num
        (sub64 s.total_coroutines_num
          (s.used_coroutines.length + s.initial_coroutines.length)) =
      s.total_coroutines_num
    rw [hsub]
    exact Nat.max_eq_left (Nat.sub_le _ _)
  · exact hsub

/-- Witness for C7 on the state reached by one successful acquire. -/
theorem c7_stats_snapshot_witness :
    (reach 4096 ⟨131072, 2, 4, 0⟩ [Op.acquire true]).pool.total_coroutines_num < W
    ∧ (GetStats (reach 4096 ⟨131072, 2, 4, 0⟩ [Op.acquire true]).pool).total_coroutines =
        (reach 4096 ⟨131072, 2, 4, 0⟩ [Op.acquire true]).pool.total_coroutines_num :=
  ⟨by decide, (c7_stats_snapshot 4096 ⟨131072, 2, 4, 0⟩ [Op.acquire true] (by decide)).1⟩

/-- C8: on every reachable state with an outstanding lease, destroying that
lease without a successful hand-back decrements `total_coroutines_num_` by
exactly one — whether the lease is simply dropped, the ceiling check
rejected the return, or the warm-queue enqueue failed — while a successful
return to the pool leaves `total_coroutines_num_` unchanged. -/
theorem c8_lease_destruction (p : Nat) (config : PoolConfig) (t : List Op)
    (c : Nat) (rest : List Nat) (e : Bool)
    (hl : (reach p config t).leases = c :: rest) :
    ((dropW (reach p config t)).pool.total_coroutines_num + 1 =
        (reach p config t).pool.total_coroutines_num)
    ∧ ((reach p config t).pool.cfg.max_size ≤
          (reach p config t).pool.idle_coroutines_num →
        (releaseW (reach p config t) e).pool.total_coroutines_num + 1 =
          (reach p config t).pool.total_coroutines_num)
    ∧ ((reach p config t).pool.idle_coroutines_num <
          (reach p config t).pool.cfg.max_size →
        (releaseW (reach p config t) false).pool.total_coroutines_num + 1 =
          (reach p config t).pool.total_coroutines_num)
    ∧ ((reach p config t).pool.idle_coroutines_num <
          (reach p config t).pool.cfg.max_size →
        (releaseW (reach p config t) true).pool.total_coroutines_num =
          (reach p config t).pool.total_coroutines_num) := by
  obtain ⟨h1, h2⟩ := quiescentInv_reach p config t
  set w := reach p config t with hw
  rw [hl] at h1
  simp only [List.length_cons] at h1
  refine ⟨?_, fun hm => ?_, fun hm => ?_, fun hm => ?_⟩
  · simp [dropW, hl, OnCoroutineDestruction]
    omega
  · simp [releaseW, hl, PutCoroutine, hm, OnCoroutineDestruction]
    omega
  · simp [releaseW, hl, PutCoroutine, Nat.not_le.mpr hm, OnCoroutineDestruction]
    omega
  · simp [releaseW, hl, PutCoroutine, Nat.not_le.mpr hm]

/-- Witness for C8 on a trace whose single acquire allocated a coroutine:
dropping the lease takes the live count from 1 back to 0. -/
theorem c8_lease_destruction_witness :
    (reach 4096 ⟨131072, 0, 2, 0⟩ [Op.acquire true]).leases = 0 :: []
    ∧ (dropW (reach 4096 ⟨131072, 0, 2, 0⟩ [Op.acquire true])).pool.total_coroutines_num + 1 =
        (reach 4096 ⟨131072, 0, 2, 0⟩ [Op.acquire true]).pool.total_coroutines_num :=
  ⟨by decide,
   (c8_lease_destruction 4096 ⟨131072, 0, 2, 0⟩ [Op.acquire true] 0 [] true (by decide)).1⟩

/-- C10: in every sequential trace starting from a config with
`initial_size ≤ max_size`, `idle_coroutines_num_` never exceeds
`max_size`. -/
theorem c10_sequential_idle_ceiling (p : Nat) (config : PoolConfig)
    (t : List Op) (h : config.initial_size ≤ config.max_size) :
    (reach p config t).pool.idle_coroutines_num ≤ config.max_size := by
  have h0 : (⟨mkPool p config, []⟩ : World).pool.idle_coroutines_num ≤
      (⟨mkPool p config, []⟩ : World).pool.cfg.max_size := by
    simpa [mkPool, FixupConfig] using h
  have hb := runTrace_idle_le t ⟨mkPool p config, []⟩ h0
  have hc : (reach p config t).pool.cfg.max_size = config.max_size := by
    rw [reach_cfg]
    rfl
  rw [reach] at hc ⊢
  omega

/-- Witness for C10 on a short acquire/release trace. -/
theorem c10_sequential_idle_ceiling_witness :
    (⟨131072, 2, 4, 0⟩ : PoolConfig).initial_size ≤
        (⟨131072, 2, 4, 0⟩ : PoolConfig).max_size
    ∧ (reach 4096 ⟨131072, 2, 4, 0⟩
          [Op.acquire true, Op.release true]).pool.idle_coroutines_num ≤
        (⟨131072, 2, 4, 0⟩ : PoolConfig).max_size :=
  ⟨by decide,
   c10_sequential_idle_ceiling 4096 ⟨131072, 2, 4, 0⟩
     [Op.acquire true, Op.release true] (by decide)⟩

theorem land_high_mask {k x : Nat} (hk : k ≤ 64) (hx : x < W) :
    x &&& (W - 2 ^ k) = 2 ^ k * (x / 2 ^ k) := by
  have hmask : W - 2 ^ k = 2 ^ k * (2 ^ (64 - k) - 1) := by
    have hpow : 2 ^ k * 2 ^ (64 - k) = W := by
      rw [← pow_add, W]
      congr 1
      omega
    have hpos : 0 < 2 ^ (64 - k) := Nat.two_pow_pos _
    have h2 : 2 ^ k * (2 ^ (64 - k) - 1 + 1) =
        2 ^ k * (2 ^ (64 - k) - 1) + 2 ^ k := by ring
    have h3 : 2 ^ (64 - k) - 1 + 1 = 2 ^ (64 - k) := by omega
    rw [h3, hpow] at h2
    omega
  apply Nat.eq_of_testBit_eq
  intro i
  rw [Nat.testBit_and, hmask, Nat.testBit_mul_pow_two, Nat.testBit_mul_pow_two,
    Nat.testBit_two_pow_sub_one]
  have hdiv : (x / 2 ^ k).testBit (i - k) = x.testBit (k + (i - k)) := by
    rw [← Nat.shiftRight_eq_div_pow, Nat.testBit_shiftRight]
  rw [hdiv]
  by_cases hik : k ≤ i
  · have hki : k + (i - k) = i := by omega
    rw [hki]
    by_cases hi64 : i < 64
    · have hlt : i - k < 64 - k := by omega
      simp [ge_iff_le, hik, hlt, Bool.and_comm]
    · have hfalse : x.testBit i = false := by
        apply Nat.testBit_lt_two_pow
        calc x < 2 ^ 64 := hx
          _ ≤ 2 ^ i := Nat.pow_le_pow_right (by norm_num) (by omega)
      have hge : ¬ (i - k < 64 - k) := by omega
      simp [hfalse, hge]
  · simp [ge_iff_le, hik]

theorem fixup_stack_size_eq {k : Nat} (p : Nat) (config : PoolConfig)
    (hp : p = 2 ^ k) (hk : k ≤ 64)
    (hof : config.stack_size + p - 1 < W) :
    (FixupConfig p config).stack_size =
      p * ((config.stack_size + p - 1) / p) := by
  subst hp
  show (config.stack_size + 2 ^ k - 1) % W &&& (W - 2 ^ k) = _
  rw [Nat.mod_eq_of_lt hof]
  exact land_high_mask hk hof

/-- C6 counterexample: the claim says the stack size held after
construction is "at least one page", but for an input config with
`stack_size = 0` the rounding `(0 + page_size - 1) & ~(page_size - 1)`
yields 0, which is smaller than one page (shown for the typical 4096-byte
page); `FixupConfig` enforces no minimum. -/
theorem c6_min_page_counterexample :
    (FixupConfig 4096
        { stack_size := 0, initial_size := 0, max_size := 1,
          monitor_period := 0 }).stack_size = 0
    ∧ (FixupConfig 4096
        { stack_size := 0, initial_size := 0, max_size := 1,
          monitor_period := 0 }).stack_size < 4096 := by
  constructor <;> decide

/-- C6 (amended): for every input config whose `stack_size` is at least 1
and small enough that the `std::size_t` rounding does not overflow, the
stack size held after construction (and returned by `GetStackSize`) is the
input rounded up to page granularity for a power-of-two page size: it is
the least multiple of the page size not below the input, hence a multiple
of the page size and at least one page; no maximum is enforced.  (The
unamended claim fails at input `stack_size = 0`, where the result is 0.) -/
theorem c6_stack_rounding_amended (k p : Nat) (config : PoolConfig)
    (hp : p = 2 ^ k) (hk : k ≤ 64)
    (hs : 1 ≤ config.stack_size) (hof : config.stack_size + p - 1 < W) :
    GetStackSize (mkPool p config) = p * ((config.stack_size + p - 1) / p)
    ∧ p ∣ GetStackSize (mkPool p config)
    ∧ config.stack_size ≤ GetStackSize (mkPool p config)
    ∧ GetStackSize (mkPool p config) < config.stack_size + p
    ∧ p ≤ GetStackSize (mkPool p config) := by
  have heq : GetStackSize (mkPool p config) =
      p * ((config.stack_size + p - 1) / p) :=
    fixup_stack_size_eq p config hp hk hof
  rw [heq]
  have hp0 : 0 < p := by
    subst hp
    exact Nat.two_pow_pos k
  have hdm := Nat.div_add_mod (config.stack_size + p - 1) p
  have hm : (config.stack_size + p - 1) % p < p := Nat.mod_lt _ hp0
  have key : ∀ A r : Nat, A + r = config.stack_size + p - 1 → r < p →
      config.stack_size ≤ A ∧ A < config.stack_size + p := by
    intro A r hAr hr
    omega
  have hbounds := key (p * ((config.stack_size + p - 1) / p))
    ((config.stack_size + p - 1) % p) hdm hm
  have hq : 1 ≤ (config.stack_size + p - 1) / p :=
    (Nat.one_le_div_iff hp0).mpr (by omega)
  refine ⟨rfl, ⟨(config.stack_size + p - 1) / p, rfl⟩, hbounds.1, hbounds.2, ?_⟩
  exact Nat.le_mul_of_pos_right p hq

/-- Witness for the amended C6: a 131073-byte request on 4096-byte pages is
rounded up to the next page multiple. -/
theorem c6_stack_rounding_amended_witness :
    ((4096 : Nat) = 2 ^ 12 ∧ (12 : Nat) ≤ 64 ∧ (1 : Nat) ≤ 131073
      ∧ 131073 + 4096 - 1 < W)
    ∧ GetStackSize (mkPool 4096
        { stack_size := 131073, initial_size := 4, max_size := 8,
          monitor_period := 0 }) = 4096 * ((131073 + 4096 - 1) / 4096) :=
  ⟨⟨by decide, by decide, by decide, by decide⟩,
   (c6_stack_rounding_amended 12 4096
     { stack_size := 131073, initial_size := 4, max_size := 8,
       monitor_period := 0 }
     (by decide) (by decide) (by decide) (by decide)).1⟩

end CoroPool
